import Mathlib

set_option maxRecDepth 10000

/-!
# Verification of the MAS metadata API dispatcher (`src/mas/api/api.go`)

A shallow embedding of the request handler: a stateless HTTP gateway that
selects one of eight backend operations by the presence of a query-string
flag, coerces raw string parameters into nullable SQL arguments, and
memoizes successful responses in an optional best-effort memcache.

The backend (`db.QueryRow(...).Scan(&payload)`) is modelled as an oracle
`OpName → List SqlArg → Except String String`: the SQL-side coercions
(`nullif($n,'')`, `string_to_array(..., ',')`) that appear literally in the
handler's query templates are part of the embedding, the `mas_*` Postgres
functions behind them are opaque.
-/

namespace MasApi

/-- An argument as delivered to the backend call after the SQL-side coercion
written in the handler's query templates: `nullif($n,'')` turns the empty
string into SQL `null`, and `string_to_array(nullif($n,''), ',')` turns a
non-null string into a text array (null stays null). A non-null scalar is
kept as the raw text, to be parsed by the target-type cast (`::integer`,
`::timestamptz`, ...) inside the opaque backend. -/
inductive SqlArg where
  | nullv : SqlArg
  | text : String → SqlArg
  | arr : List String → SqlArg
deriving DecidableEq, Repr

/-- The eight operations of the dispatch chain in `handler`, in source order. -/
inductive OpName where
  | intersects
  | timestamps
  | extents
  | list_root_gpath
  | list_sub_gpath
  | generate_layers
  | put_ows_cache
  | get_ows_cache
deriving DecidableEq, Repr

/-- An inbound HTTP request as the handler consumes it: `request.URL.Path`,
the parsed query/form pairs (Go's `url.Values`, in order), and the raw
`request.URL.RequestURI()` used for the cache fingerprint. -/
structure Request where
  path : String
  query : List (String × String)
  requestURI : String
deriving DecidableEq, Repr

/-- Go's `query[k]` presence test: the key occurs in the parsed query. -/
def hasFlag (r : Request) (k : String) : Bool :=
  r.query.any (fun p => p.1 == k)

/-- Go's `request.FormValue(k)`: the first value for the key, or the empty
string when the key is absent. -/
def formValue (r : Request) (k : String) : String :=
  match r.query.find? (fun p => p.1 == k) with
  | some p => p.2
  | none => ""

/-- Postgres `string_to_array(s, ',')` on a non-null string: the ordered
groups of characters between commas (empty groups kept), as `String`s. -/
def splitComma (s : String) : List String :=
  (s.data.splitOn ',').map (fun cs => String.mk cs)

/-- `nullif($n,'')::<scalar type>`: the empty string becomes SQL null, any
other string is passed on for parsing by the target-type cast. -/
def coerceText (s : String) : SqlArg :=
  if s = "" then SqlArg.nullv else SqlArg.text s

/-- `string_to_array(nullif($n,''), ',')`: the empty string becomes SQL null
(`string_to_array` of a null argument is null, per the handler's comment),
any other string is split on commas into a text array. -/
def coerceList (s : String) : SqlArg :=
  if s = "" then SqlArg.nullv else SqlArg.arr (splitComma s)

/-- Where an operation parameter is read from: the request path or a named
form/query value (the spec's Operation Descriptor `source`). -/
inductive PSource where
  | path : PSource
  | form : String → PSource
deriving DecidableEq, Repr

/-- The coercion applied to a parameter: scalar (`nullif($n,'')::τ`) or
comma-separated list (`string_to_array(nullif($n,''), ',')`). -/
inductive PType where
  | text : PType
  | list : PType
deriving DecidableEq, Repr

/-- One parameter of an Operation Descriptor. -/
structure ParamDesc where
  source : PSource
  ptype : PType
deriving DecidableEq, Repr

/-- The ordered parameter list of each operation, read off the positional
arguments of the handler's `db.QueryRow` call for that operation. -/
def opParams : OpName → List ParamDesc
  | OpName.intersects =>
    [⟨PSource.path, PType.text⟩, ⟨PSource.form "srs", PType.text⟩,
     ⟨PSource.form "wkt", PType.text⟩, ⟨PSource.form "nseg", PType.text⟩,
     ⟨PSource.form "time", PType.text⟩, ⟨PSource.form "until", PType.text⟩,
     ⟨PSource.form "namespace", PType.list⟩, ⟨PSource.form "metadata", PType.text⟩,
     ⟨PSource.form "identitytol", PType.text⟩, ⟨PSource.form "dptol", PType.text⟩,
     ⟨PSource.form "limit", PType.text⟩]
  | OpName.timestamps =>
    [⟨PSource.path, PType.text⟩, ⟨PSource.form "time", PType.text⟩,
     ⟨PSource.form "until", PType.text⟩, ⟨PSource.form "namespace", PType.list⟩,
     ⟨PSource.form "token", PType.text⟩]
  | OpName.extents =>
    [⟨PSource.path, PType.text⟩, ⟨PSource.form "namespace", PType.list⟩]
  | OpName.list_root_gpath => []
  | OpName.list_sub_gpath => [⟨PSource.path, PType.text⟩]
  | OpName.generate_layers => [⟨PSource.path, PType.text⟩]
  | OpName.put_ows_cache =>
    [⟨PSource.path, PType.text⟩, ⟨PSource.form "query", PType.text⟩,
     ⟨PSource.form "value", PType.text⟩]
  | OpName.get_ows_cache =>
    [⟨PSource.path, PType.text⟩, ⟨PSource.form "query", PType.text⟩]

/-- Read a parameter's raw string from its source. -/
def readRaw (r : Request) : PSource → String
  | PSource.path => r.path
  | PSource.form k => formValue r k

/-- Coerce one parameter of a request per its descriptor. -/
def coerceParam (r : Request) (d : ParamDesc) : SqlArg :=
  match d.ptype with
  | PType.text => coerceText (readRaw r d.source)
  | PType.list => coerceList (readRaw r d.source)

/-- The argument vector the handler delivers to the backend call of an
operation, after the SQL-side coercions of its query template. -/
def opArgs (r : Request) (op : OpName) : List SqlArg :=
  (opParams op).map (coerceParam r)

/-- The dispatch chain of `handler`: `if _, ok := query["intersects"]; ok
{...} else if _, ok := query["timestamps"]; ok {...} else if ...`, in the
source's textual order. -/
def selectOp (r : Request) : Option OpName :=
  if hasFlag r "intersects" then some OpName.intersects
  else if hasFlag r "timestamps" then some OpName.timestamps
  else if hasFlag r "extents" then some OpName.extents
  else if hasFlag r "list_root_gpath" then some OpName.list_root_gpath
  else if hasFlag r "list_sub_gpath" then some OpName.list_sub_gpath
  else if hasFlag r "generate_layers" then some OpName.generate_layers
  else if hasFlag r "put_ows_cache" then some OpName.put_ows_cache
  else if hasFlag r "get_ows_cache" then some OpName.get_ows_cache
  else none

/-- The same dispatch order as an explicit table, flag name first. -/
def opTable : List (String × OpName) :=
  [("intersects", OpName.intersects), ("timestamps", OpName.timestamps),
   ("extents", OpName.extents), ("list_root_gpath", OpName.list_root_gpath),
   ("list_sub_gpath", OpName.list_sub_gpath), ("generate_layers", OpName.generate_layers),
   ("put_ows_cache", OpName.put_ows_cache), ("get_ows_cache", OpName.get_ows_cache)]

/-! ## The request fingerprint: `md5.Sum` + `hex.EncodeToString`

`hash = hex.EncodeToString(md5.Sum([]byte(request.URL.RequestURI()))[:])`.
Go's `crypto/md5` (RFC 1321) is modelled here as a pure function on the
UTF-8 bytes of the URI, every 32-bit word a `Nat` reduced mod `2^32`. -/

/-- Reduce mod `2^32`. -/
def w32 (x : Nat) : Nat := x % 4294967296

/-- Left-rotate a 32-bit word (`x < 2^32`) by `c` bits (`0 < c < 32`). -/
def rotl32 (x c : Nat) : Nat := w32 (x * 2 ^ c) + x / 2 ^ (32 - c)

/-- Bitwise complement on a 32-bit word. -/
def not32 (x : Nat) : Nat := 4294967295 - x

/-- UTF-8 encoding of one code point. -/
def utf8Bytes1 (c : Nat) : List Nat :=
  if c < 128 then [c]
  else if c < 2048 then [192 + c / 64, 128 + c % 64]
  else if c < 65536 then [224 + c / 4096, 128 + c / 64 % 64, 128 + c % 64]
  else [240 + c / 262144, 128 + c / 4096 % 64, 128 + c / 64 % 64, 128 + c % 64]

/-- The UTF-8 bytes of a string (Go's `[]byte(s)`). -/
def strBytes (s : String) : List Nat :=
  s.data.flatMap (fun c => utf8Bytes1 c.toNat)

/-- Little-endian bytes of a 64-bit word. -/
def leBytes8 (x : Nat) : List Nat :=
  [x % 256, x / 256 % 256, x / 65536 % 256, x / 16777216 % 256,
   x / 4294967296 % 256, x / 1099511627776 % 256,
   x / 281474976710656 % 256, x / 72057594037927936 % 256]

/-- Little-endian bytes of a 32-bit word. -/
def leBytes4 (x : Nat) : List Nat :=
  [x % 256, x / 256 % 256, x / 65536 % 256, x / 16777216 % 256]

/-- MD5 padding: `0x80`, zeros to 56 mod 64, then the bit length as a
64-bit little-endian word. -/
def md5padSuffix (n : Nat) : List Nat :=
  128 :: List.replicate ((120 - (n + 1) % 64) % 64) 0 ++ leBytes8 (8 * n % 18446744073709551616)

/-- Group a byte list into 32-bit little-endian words. -/
def toWords : List Nat → List Nat
  | b0 :: b1 :: b2 :: b3 :: rest =>
    (b0 + 256 * b1 + 65536 * b2 + 16777216 * b3) :: toWords rest
  | _ => []

/-- Split a byte list into 64-byte chunks (structural recursion on a fuel
bound, so that the kernel can evaluate it; `fuel = l.length` always
suffices since each step consumes at least one byte). -/
def chunk64Go : Nat → List Nat → List (List Nat)
  | _, [] => []
  | 0, _ :: _ => []
  | fuel + 1, b :: bs => (b :: bs).take 64 :: chunk64Go fuel ((b :: bs).drop 64)

/-- Split a byte list into 64-byte chunks. -/
def chunk64 (l : List Nat) : List (List Nat) := chunk64Go l.length l

/-- The 64 MD5 sine-table constants. -/
def md5KTab : List Nat :=
  [0xd76aa478, 0xe8c7b756, 0x242070db, 0xc1bdceee,
   0xf57c0faf, 0x4787c62a, 0xa8304613, 0xfd469501,
   0x698098d8, 0x8b44f7af, 0xffff5bb1, 0x895cd7be,
   0x6b901122, 0xfd987193, 0xa679438e, 0x49b40821,
   0xf61e2562, 0xc040b340, 0x265e5a51, 0xe9b6c7aa,
   0xd62f105d, 0x02441453, 0xd8a1e681, 0xe7d3fbc8,
   0x21e1cde6, 0xc33707d6, 0xf4d50d87, 0x455a14ed,
   0xa9e3e905, 0xfcefa3f8, 0x676f02d9, 0x8d2a4c8a,
   0xfffa3942, 0x8771f681, 0x6d9d6122, 0xfde5380c,
   0xa4beea44, 0x4bdecfa9, 0xf6bb4b60, 0xbebfbc70,
   0x289b7ec6, 0xeaa127fa, 0xd4ef3085, 0x04881d05,
   0xd9d4d039, 0xe6db99e5, 0x1fa27cf8, 0xc4ac5665,
   0xf4292244, 0x432aff97, 0xab9423a7, 0xfc93a039,
   0x655b59c3, 0x8f0ccc92, 0xffeff47d, 0x85845dd1,
   0x6fa87e4f, 0xfe2ce6e0, 0xa3014314, 0x4e0811a1,
   0xf7537e82, 0xbd3af235, 0x2ad7d2bb, 0xeb86d391]

/-- The 64 MD5 per-round shift amounts. -/
def md5STab : List Nat :=
  [7, 12, 17, 22, 7, 12, 17, 22, 7, 12, 17, 22, 7, 12, 17, 22,
   5, 9, 14, 20, 5, 9, 14, 20, 5, 9, 14, 20, 5, 9, 14, 20,
   4, 11, 16, 23, 4, 11, 16, 23, 4, 11, 16, 23, 4, 11, 16, 23,
   6, 10, 15, 21, 6, 10, 15, 21, 6, 10, 15, 21, 6, 10, 15, 21]

/-- One MD5 round, state `(a, b, c, d)`, round index `i < 64`. -/
def md5Step (M : List Nat) (st : Nat × Nat × Nat × Nat) (i : Nat) :
    Nat × Nat × Nat × Nat :=
  match st with
  | (a, b, c, d) =>
    let f :=
      if i < 16 then (b &&& c) ||| (not32 b &&& d)
      else if i < 32 then (d &&& b) ||| (not32 d &&& c)
      else if i < 48 then b ^^^ c ^^^ d
      else c ^^^ (b ||| not32 d)
    let g :=
      if i < 16 then i
      else if i < 32 then (5 * i + 1) % 16
      else if i < 48 then (3 * i + 5) % 16
      else 7 * i % 16
    let tmp := w32 (a + f + md5KTab.getD i 0 + M.getD g 0)
    (d, w32 (b + rotl32 tmp (md5STab.getD i 0)), b, c)

/-- Process one 64-byte chunk. -/
def md5Block (st : Nat × Nat × Nat × Nat) (block : List Nat) :
    Nat × Nat × Nat × Nat :=
  let M := toWords block
  match (List.range 64).foldl (md5Step M) st, st with
  | (a, b, c, d), (a0, b0, c0, d0) =>
    (w32 (a + a0), w32 (b + b0), w32 (c + c0), w32 (d + d0))

/-- The MD5 initial state. -/
def md5Init : Nat × Nat × Nat × Nat :=
  (0x67452301, 0xefcdab89, 0x98badcfe, 0x10325476)

/-- The 16-byte MD5 digest of a byte sequence. -/
def md5Bytes (msg : List Nat) : List Nat :=
  match (chunk64 (msg ++ md5padSuffix msg.length)).foldl md5Block md5Init with
  | (a, b, c, d) => leBytes4 a ++ leBytes4 b ++ leBytes4 c ++ leBytes4 d

/-- A lowercase hex digit. -/
def hexDigit (n : Nat) : Char :=
  if n < 10 then Char.ofNat (48 + n) else Char.ofNat (87 + n)

/-- Two lowercase hex digits of a byte. -/
def byteHexChars (b : Nat) : List Char := [hexDigit (b / 16), hexDigit (b % 16)]

/-- The cache fingerprint of the handler:
`hex.EncodeToString(md5.Sum([]byte(uri))[:])`. -/
def md5hex (uri : String) : String :=
  String.mk ((md5Bytes (strBytes uri)).flatMap byteHexChars)

/-! ## Error formatting

`httpJSONError` writes `fmt.Sprintf("{ \"error\": %q }", err.Error())`
through `http.Error`, which appends a trailing newline to the body. The
`%q` verb is Go's `strconv.Quote`: a double-quoted string with `"`, `\`
and control characters escaped, printable ASCII kept as is (escaping of
characters outside printable ASCII is approximated by a `\u` escape; the
error texts exercised here are printable ASCII). -/

/-- Four lowercase hex digits of a 16-bit value. -/
def hex4Chars (n : Nat) : List Char :=
  [hexDigit (n / 4096 % 16), hexDigit (n / 256 % 16),
   hexDigit (n / 16 % 16), hexDigit (n % 16)]

/-- Go `%q` escaping of one character. -/
def goQuoteChar (c : Char) : List Char :=
  if c = '"' then ['\\', '"']
  else if c = '\\' then ['\\', '\\']
  else if c = '\n' then ['\\', 'n']
  else if c = '\t' then ['\\', 't']
  else if c = '\r' then ['\\', 'r']
  else if 32 ≤ c.toNat ∧ c.toNat < 127 then [c]
  else '\\' :: 'u' :: hex4Chars (c.toNat % 65536)

/-- Go `%q` escaping of every character of a string. -/
def goQuoteChars : List Char → List Char
  | [] => []
  | c :: cs => goQuoteChar c ++ goQuoteChars cs

/-- Go's `fmt.Sprintf` `%q` verb on a string. -/
def goQuote (s : String) : String :=
  String.mk ('"' :: (goQuoteChars s.data ++ ['"']))

/-- The response body written by `httpJSONError(response, err, 400)`:
`{ "error": %q }` of the error text, plus the newline `http.Error`
appends. -/
def jsonErrorBody (msg : String) : String :=
  "\x7b \"error\": " ++ goQuote msg ++ " \x7d" ++ "\n"

/-- The fixed message of the fall-through dispatch branch. -/
def unknownOpMsg : String :=
  "unknown operation; currently supported: ?intersects, ?timestamps, ?extents"

/-! ## The handler

External collaborators are oracles: the backend is a function from the
operation and its coerced argument vector to a payload or an error text;
the memcache client is an association list of entries plus per-key fault
oracles (`mc.Get` faults — including plain misses reported as
`ErrCacheMiss` — and `mc.Set` faults). `mcEnabled` is `mc != nil`. -/

/-- The memcache contents: newest entry first, keyed by fingerprint. -/
abbrev CacheState := List (String × String)

/-- The handler's environment of external collaborators. -/
structure Env where
  db : OpName → List SqlArg → Except String String
  mcEnabled : Bool
  getFault : String → Bool
  setFault : String → Bool

/-- `mc.Get(hash)`: `some` value only when the key is present and the
lookup does not fault; any fault (network error or `ErrCacheMiss`) makes
`ok == nil` fail and is treated as a miss. -/
def cacheGet (e : Env) (cs : CacheState) (k : String) : Option String :=
  if e.getFault k then none
  else (cs.find? (fun p => p.1 == k)).map (fun p => p.2)

/-- `mc.Set(&memcache.Item{Key: hash, Value: []byte(payload)})`: on a
fault the store is lost and the error ignored; otherwise the entry
shadows any previous one. -/
def cacheSet (e : Env) (cs : CacheState) (k v : String) : CacheState :=
  if e.setFault k then cs else (k, v) :: cs

/-- The observable outcome of one handler invocation: HTTP status, the
response body, the memcache contents afterwards, and the backend calls
issued (in order). -/
structure HResult where
  status : Nat
  body : String
  cache : CacheState
  dbCalls : List (OpName × List SqlArg)
deriving DecidableEq, Repr

/-- The handler after the cache lookup (`hash?` is the fingerprint when
`mc != nil`, else `none`): select the operation by the flag chain, call
the backend, and on success write the payload and store it best-effort. -/
def dispatch (e : Env) (cs : CacheState) (r : Request) (hash? : Option String) :
    HResult :=
  match selectOp r with
  | none => ⟨400, jsonErrorBody unknownOpMsg, cs, []⟩
  | some op =>
    match e.db op (opArgs r op) with
    | Except.error msg => ⟨400, jsonErrorBody msg, cs, [(op, opArgs r op)]⟩
    | Except.ok payload =>
      match hash? with
      | some h => ⟨200, payload, cacheSet e cs h payload, [(op, opArgs r op)]⟩
      | none => ⟨200, payload, cs, [(op, opArgs r op)]⟩

/-- One invocation of `handler`: when the cache client is configured,
fingerprint the request URI and serve a cache hit directly; otherwise
dispatch, passing the fingerprint along for the best-effort store. -/
def handler (e : Env) (cs : CacheState) (r : Request) : HResult :=
  if e.mcEnabled then
    let hash := md5hex r.requestURI
    match cacheGet e cs hash with
    | some v => ⟨200, v, cs, []⟩
    | none => dispatch e cs r (some hash)
  else dispatch e cs r none

/-! ## Concrete fixtures (for closed instances of the theorems) -/

/-- A backend oracle that always succeeds with a fixed payload. -/
def dbConst (s : String) : OpName → List SqlArg → Except String String :=
  fun _ _ => Except.ok s

/-- A backend oracle that always fails with a fixed error text. -/
def dbErr (s : String) : OpName → List SqlArg → Except String String :=
  fun _ _ => Except.error s

/-- A fault oracle that never faults. -/
def noFault : String → Bool := fun _ => false

/-- A plain environment: successful backend, no cache client. -/
def envPlain : Env := ⟨dbConst "{}", false, noFault, noFault⟩

/-- A failing backend, no cache client. -/
def envErr : Env := ⟨dbErr "boom", false, noFault, noFault⟩

/-- A successful backend with a reliable cache client. -/
def envCached : Env := ⟨dbConst "{}", true, noFault, noFault⟩

/-- A request with no recognized operation flag. -/
def reqNoFlag : Request := ⟨"/x", [], "/x"⟩

/-- `GET /t?timestamps&time=`: the `time` parameter supplied empty. -/
def reqTsTime : Request :=
  ⟨"/t", [("timestamps", ""), ("time", "")], "/t?timestamps&time="⟩

/-- `GET /t?timestamps`: the `time` parameter absent altogether. -/
def reqTsOnly : Request := ⟨"/t", [("timestamps", "")], "/t?timestamps"⟩

/-- `GET /t?timestamps&namespace=a,b,c`: the spec's list-parameter example. -/
def reqTsNs : Request :=
  ⟨"/t", [("timestamps", ""), ("namespace", "a,b,c")], "/t?timestamps&namespace=a,b,c"⟩

/-- `GET /x?extents&timestamps`: two recognized flags at once. -/
def reqMulti : Request :=
  ⟨"/x", [("extents", ""), ("timestamps", "")], "/x?extents&timestamps"⟩

/-- `GET /x?extents`: a single-flag request. -/
def reqExt : Request := ⟨"/x", [("extents", "")], "/x?extents"⟩

/-- `GET /x?put_ows_cache`: a cache-mutating operation request. -/
def reqPut : Request := ⟨"/x", [("put_ows_cache", "")], "/x?put_ows_cache"⟩

/-- A fresh-backend environment with a reliable cache, for `reqPut`. -/
def envFresh : Env := ⟨dbConst "FRESH", true, noFault, noFault⟩

/-- A cache already holding a stale entry under `reqPut`'s fingerprint. -/
def csStale : CacheState := [(md5hex reqPut.requestURI, "STALE")]

/-- A cache already holding an entry under `reqTsOnly`'s fingerprint. -/
def csHit : CacheState := [(md5hex reqTsOnly.requestURI, "CACHED")]

/-! ## Helper lemmas -/

/-- `string_to_array` on a non-null input always yields at least one group. -/
theorem splitComma_ne_nil (s : String) : splitComma s ≠ [] := by
  simp only [splitComma, ne_eq, List.map_eq_nil_iff]
  exact List.splitOnP_ne_nil _ s.data

/-- Rejoining the comma-split groups with commas restores the input:
the groups are exactly the comma-delimited substrings, in order. -/
theorem intercalate_splitComma (s : String) :
    List.intercalate [','] ((splitComma s).map String.data) = s.data := by
  have hmap : (splitComma s).map String.data = s.data.splitOn ',' := by
    simp [splitComma, List.map_map, Function.comp_def]
  rw [hmap]
  exact List.intercalate_splitOn s.data ','

/-- Appending strings concatenates their character data. -/
theorem string_data_append (a b : String) : (a ++ b).data = a.data ++ b.data := by
  cases a
  cases b
  rfl

/-- A character needing no `%q` escape: printable ASCII other than the
quote and the backslash. -/
def plainChar (c : Char) : Bool :=
  decide (31 < c.toNat) && decide (c.toNat < 127) && c != '"' && c != '\\'

/-- `%q` leaves a plain character unescaped. -/
theorem goQuoteChar_plain (c : Char) (h : plainChar c = true) :
    goQuoteChar c = [c] := by
  simp only [plainChar, Bool.and_eq_true, bne_iff_ne, ne_eq, decide_eq_true_eq] at h
  obtain ⟨⟨⟨h1, h2⟩, h3⟩, h4⟩ := h
  have hn : ¬c = '\n' := fun hc => by subst hc; exact absurd h1 (by decide)
  have ht : ¬c = '\t' := fun hc => by subst hc; exact absurd h1 (by decide)
  have hr : ¬c = '\r' := fun hc => by subst hc; exact absurd h1 (by decide)
  rw [goQuoteChar, if_neg h3, if_neg h4, if_neg hn, if_neg ht, if_neg hr,
    if_pos ⟨h1, h2⟩]

/-- `%q` leaves a string of plain characters unescaped. -/
theorem goQuoteChars_plain (l : List Char) (h : l.all plainChar = true) :
    goQuoteChars l = l := by
  induction l with
  | nil => rfl
  | cons c cs ih =>
    simp only [List.all_cons, Bool.and_eq_true] at h
    simp [goQuoteChars, goQuoteChar_plain c h.1, ih h.2]

/-- On plain-ASCII messages, `%q` is quotation marks around the text. -/
theorem goQuote_plain (s : String) (h : s.data.all plainChar = true) :
    goQuote s = "\"" ++ s ++ "\"" := by
  apply String.ext
  simp [goQuote, string_data_append, goQuoteChars_plain s.data h]

/-- On plain-ASCII messages, the error body carries the text verbatim. -/
theorem jsonErrorBody_plain (msg : String) (h : msg.data.all plainChar = true) :
    jsonErrorBody msg = "\x7b \"error\": \"" ++ msg ++ "\" \x7d" ++ "\n" := by
  apply String.ext
  simp [jsonErrorBody, goQuote_plain msg h, string_data_append]

/-- With no cache client configured, the handler is the bare dispatch. -/
theorem handler_disabled (e : Env) (cs : CacheState) (r : Request)
    (he : e.mcEnabled = false) : handler e cs r = dispatch e cs r none := by
  simp [handler, he]

/-- With a cache client and a successful lookup, the handler replays the
cached bytes and stops. -/
theorem handler_hit (e : Env) (cs : CacheState) (r : Request) (v : String)
    (he : e.mcEnabled = true)
    (hhit : cacheGet e cs (md5hex r.requestURI) = some v) :
    handler e cs r = ⟨200, v, cs, []⟩ := by
  simp [handler, he, hhit]

/-- With a cache client and a missed lookup, the handler dispatches,
passing the fingerprint for the best-effort store. -/
theorem handler_missed (e : Env) (cs : CacheState) (r : Request)
    (he : e.mcEnabled = true)
    (hmiss : cacheGet e cs (md5hex r.requestURI) = none) :
    handler e cs r = dispatch e cs r (some (md5hex r.requestURI)) := by
  simp [handler, he, hmiss]

/-- Neither the response body, the status, nor the backend calls of a
dispatch depend on the cache contents, the fingerprint, or the cache
client: only the backend oracle matters. -/
theorem dispatch_obs_congr (e1 e2 : Env) (cs1 cs2 : CacheState) (r : Request)
    (h1 h2 : Option String) (hdb : e1.db = e2.db) :
    (dispatch e1 cs1 r h1).body = (dispatch e2 cs2 r h2).body ∧
    (dispatch e1 cs1 r h1).status = (dispatch e2 cs2 r h2).status ∧
    (dispatch e1 cs1 r h1).dbCalls = (dispatch e2 cs2 r h2).dbCalls := by
  simp only [dispatch, hdb]
  cases hsel : selectOp r with
  | none => simp
  | some op =>
    cases hres : e2.db op (opArgs r op) with
    | error msg => simp [hres]
    | ok payload => cases h1 <;> cases h2 <;> simp [hres]

/-- A dispatch without a fingerprint never touches the cache. -/
theorem dispatch_cache_none (e : Env) (cs : CacheState) (r : Request) :
    (dispatch e cs r none).cache = cs := by
  simp only [dispatch]
  cases hsel : selectOp r with
  | none => simp
  | some op => cases hres : e.db op (opArgs r op) <;> simp [hres]

/-- A dispatch whose store faults leaves the cache unchanged. -/
theorem dispatch_cache_setFault (e : Env) (cs : CacheState) (r : Request)
    (h? : Option String) (hsf : ∀ k, e.setFault k = true) :
    (dispatch e cs r h?).cache = cs := by
  simp only [dispatch]
  cases hsel : selectOp r with
  | none => simp
  | some op =>
    cases hres : e.db op (opArgs r op) with
    | error msg => simp [hres]
    | ok payload => cases h? <;> simp [hres, cacheSet, hsf]

/-- An empty form/query value coerces to the SQL null-equivalent,
whatever the target type. -/
theorem coerceParam_form_empty (r : Request) (d : ParamDesc) (k : String)
    (hsrc : d.source = PSource.form k) (h : formValue r k = "") :
    coerceParam r d = SqlArg.nullv := by
  cases hd : d.ptype <;>
    simp [coerceParam, hd, readRaw, hsrc, coerceText, coerceList, h]

/-- A non-empty form/query value is passed on: as raw text for a scalar
parameter, split on commas for a list parameter. -/
theorem coerceParam_form_nonempty (r : Request) (d : ParamDesc) (k : String)
    (hsrc : d.source = PSource.form k) (h : formValue r k ≠ "") :
    coerceParam r d =
      match d.ptype with
      | PType.text => SqlArg.text (formValue r k)
      | PType.list => SqlArg.arr (splitComma (formValue r k)) := by
  cases hd : d.ptype <;>
    simp [coerceParam, hd, readRaw, hsrc, coerceText, coerceList, h]

/-- A coerced form/query parameter is never the target type's zero value:
not the empty string and not the empty array. -/
theorem coerceParam_form_ne_zero (r : Request) (d : ParamDesc) (k : String)
    (hsrc : d.source = PSource.form k) :
    coerceParam r d ≠ SqlArg.text "" ∧ coerceParam r d ≠ SqlArg.arr [] := by
  by_cases h : formValue r k = ""
  · rw [coerceParam_form_empty r d k hsrc h]
    exact ⟨by simp, by simp⟩
  · rw [coerceParam_form_nonempty r d k hsrc h]
    cases hd : d.ptype
    · simp only []
      exact ⟨by simp [h], by simp⟩
    · simp only []
      exact ⟨by simp, by simp [splitComma_ne_nil]⟩

/-- A key absent from the parsed query reads as the empty string
(Go's `FormValue` zero value). -/
theorem formValue_absent (r : Request) (k : String)
    (habs : ∀ p ∈ r.query, p.1 ≠ k) : formValue r k = "" := by
  have hnone : r.query.find? (fun p => p.1 == k) = none := by
    rw [List.find?_eq_none]
    intro p hp
    simp [habs p hp]
  simp [formValue, hnone]

/-- The if-else dispatch chain selects exactly the first entry of the
operation table whose flag is present. -/
theorem selectOp_eq_table (r : Request) :
    selectOp r = (opTable.find? (fun p => hasFlag r p.1)).map (fun p => p.2) := by
  cases h1 : hasFlag r "intersects" <;> cases h2 : hasFlag r "timestamps" <;>
    cases h3 : hasFlag r "extents" <;> cases h4 : hasFlag r "list_root_gpath" <;>
    cases h5 : hasFlag r "list_sub_gpath" <;> cases h6 : hasFlag r "generate_layers" <;>
    cases h7 : hasFlag r "put_ows_cache" <;> cases h8 : hasFlag r "get_ows_cache" <;>
    simp [selectOp, opTable, List.find?, h1, h2, h3, h4, h5, h6, h7, h8]

/-! ## The claims -/

/-- C1: for every operation parameter sourced from a named form/query
value, an empty raw string is delivered to the backend as the SQL
null-equivalent — never the type's zero value — and a non-empty raw
string is passed on for parsing into the target type; the handler's
delivered argument vector is exactly the coercion of the descriptor
list. -/
theorem mas_c1_empty_form_value_null (r : Request) (op : OpName) (d : ParamDesc)
    (k : String) (hmem : d ∈ opParams op) (hsrc : d.source = PSource.form k) :
    opArgs r op = (opParams op).map (coerceParam r) ∧
    (formValue r k = "" → coerceParam r d = SqlArg.nullv) ∧
    (formValue r k ≠ "" →
      coerceParam r d =
        match d.ptype with
        | PType.text => SqlArg.text (formValue r k)
        | PType.list => SqlArg.arr (splitComma (formValue r k))) ∧
    coerceParam r d ≠ SqlArg.text "" ∧
    coerceParam r d ≠ SqlArg.arr [] := by
  refine ⟨rfl, coerceParam_form_empty r d k hsrc,
    coerceParam_form_nonempty r d k hsrc, coerceParam_form_ne_zero r d k hsrc⟩

/-- Closed instance of C1: the empty `time` value of
`/t?timestamps&time=` is delivered as SQL null. -/
theorem mas_c1_witness :
    (⟨PSource.form "time", PType.text⟩ : ParamDesc) ∈ opParams OpName.timestamps ∧
    formValue reqTsTime "time" = "" ∧
    coerceParam reqTsTime ⟨PSource.form "time", PType.text⟩ = SqlArg.nullv := by
  have hmem : (⟨PSource.form "time", PType.text⟩ : ParamDesc) ∈ opParams OpName.timestamps := by
    decide
  have hfv : formValue reqTsTime "time" = "" := by decide
  exact ⟨hmem, hfv,
    (mas_c1_empty_form_value_null reqTsTime OpName.timestamps _ "time" hmem rfl).2.1 hfv⟩

/-- C2: a non-empty list parameter is split on commas into the ordered
sequence of exactly its comma-delimited substrings (rejoining the groups
with commas restores the raw string), while an empty one yields the SQL
null-equivalent, not an empty sequence; within the timestamps operation
the `namespace` argument is delivered through this list coercion. -/
theorem mas_c2_list_split (s : String) (r : Request) (hs : s ≠ "") :
    coerceList "" = SqlArg.nullv ∧
    coerceList s = SqlArg.arr (splitComma s) ∧
    List.intercalate [','] ((splitComma s).map String.data) = s.data ∧
    opArgs r OpName.timestamps =
      [coerceText r.path, coerceText (formValue r "time"),
       coerceText (formValue r "until"), coerceList (formValue r "namespace"),
       coerceText (formValue r "token")] := by
  refine ⟨by simp [coerceList], by simp [coerceList, hs], intercalate_splitComma s, rfl⟩

/-- Closed instance of C2: `/t?timestamps&namespace=a,b,c` delivers the
namespace argument as the array `["a", "b", "c"]`. -/
theorem mas_c2_witness :
    ("a,b,c" : String) ≠ "" ∧
    formValue reqTsNs "namespace" = "a,b,c" ∧
    coerceList (formValue reqTsNs "namespace") = SqlArg.arr ["a", "b", "c"] := by
  have h := mas_c2_list_split "a,b,c" reqTsNs (by decide)
  have hfv : formValue reqTsNs "namespace" = "a,b,c" := by decide
  refine ⟨by decide, hfv, ?_⟩
  rw [hfv, h.2.1]
  decide

/-- C3: when at least one recognized flag is present, the selected
operation is deterministic — the first match in the fixed table order
`intersects, timestamps, extents, list_root_gpath, list_sub_gpath,
generate_layers, put_ows_cache, get_ows_cache` — and that operation is
the one invoked on the backend. -/
theorem mas_c3_first_match_dispatch (r : Request)
    (db : OpName → List SqlArg → Except String String)
    (gf sf : String → Bool) (cs : CacheState) :
    selectOp r = (opTable.find? (fun p => hasFlag r p.1)).map (fun p => p.2) ∧
    (∀ op, selectOp r = some op →
      (handler ⟨db, false, gf, sf⟩ cs r).dbCalls = [(op, opArgs r op)]) := by
  refine ⟨selectOp_eq_table r, ?_⟩
  intro op hop
  rw [handler_disabled _ _ _ rfl]
  simp only [dispatch, hop]
  cases hres : db op (opArgs r op) <;> simp [hres]

/-- Closed instance of C3: `/x?extents&timestamps` carries two recognized
flags; the earlier one in table order, `timestamps`, is invoked. -/
theorem mas_c3_witness :
    hasFlag reqMulti "timestamps" = true ∧ hasFlag reqMulti "extents" = true ∧
    selectOp reqMulti = some OpName.timestamps ∧
    (handler ⟨dbConst "{}", false, noFault, noFault⟩ [] reqMulti).dbCalls =
      [(OpName.timestamps, opArgs reqMulti OpName.timestamps)] := by
  have h := mas_c3_first_match_dispatch reqMulti (dbConst "{}") noFault noFault []
  exact ⟨by decide, by decide, by decide, h.2 OpName.timestamps (by decide)⟩

/-- C10: a form/query parameter absent from the request reads exactly
like one supplied as the empty string — both are delivered as the SQL
null-equivalent — and no form-sourced parameter can ever be delivered as
a non-null empty/zero value. -/
theorem mas_c10_absent_equals_empty (r1 r2 : Request) (k : String) (d : ParamDesc)
    (habs : ∀ p ∈ r1.query, p.1 ≠ k) (hempty : formValue r2 k = "")
    (hsrc : d.source = PSource.form k) :
    formValue r1 k = "" ∧
    coerceParam r1 d = SqlArg.nullv ∧
    coerceParam r1 d = coerceParam r2 d ∧
    (∀ r : Request, coerceParam r d ≠ SqlArg.text "" ∧ coerceParam r d ≠ SqlArg.arr []) := by
  have h1 : formValue r1 k = "" := formValue_absent r1 k habs
  have h2 := coerceParam_form_empty r1 d k hsrc h1
  have h3 := coerceParam_form_empty r2 d k hsrc hempty
  exact ⟨h1, h2, h2.trans h3.symm,
    fun r => coerceParam_form_ne_zero r d k hsrc⟩

/-- Closed instance of C10: `/t?timestamps` (no `time` key) and
`/t?timestamps&time=` (empty `time` value) deliver the same null
argument for the `time` parameter. -/
theorem mas_c10_witness :
    (∀ p ∈ reqTsOnly.query, p.1 ≠ "time") ∧
    formValue reqTsTime "time" = "" ∧
    coerceParam reqTsOnly ⟨PSource.form "time", PType.text⟩ = SqlArg.nullv ∧
    coerceParam reqTsOnly ⟨PSource.form "time", PType.text⟩ =
      coerceParam reqTsTime ⟨PSource.form "time", PType.text⟩ := by
  have habs : ∀ p ∈ reqTsOnly.query, p.1 ≠ "time" := by decide
  have hempty : formValue reqTsTime "time" = "" := by decide
  have h := mas_c10_absent_equals_empty reqTsOnly reqTsTime "time"
    ⟨PSource.form "time", PType.text⟩ habs hempty rfl
  exact ⟨habs, hempty, h.2.1, h.2.2.1⟩

/-- C4 as stated is false on the code: the fixed 400 message of a
flagless request names only `?intersects, ?timestamps, ?extents`, so it
does not enumerate the eight supported operations — `put_ows_cache` is
an accepted flag of the operation table but never occurs in the response
body. -/
theorem mas_c4_counterexample :
    ("put_ows_cache", OpName.put_ows_cache) ∈ opTable ∧
    (handler envPlain [] reqNoFlag).status = 400 ∧
    ¬ "put_ows_cache".data <:+: (handler envPlain [] reqNoFlag).body.data := by
  exact ⟨by decide, by decide, by decide⟩

/-- C4 amended: a request without any recognized flag (on the non-cached
path) makes no backend call and is answered 400 with the fixed JSON
error message, which names three of the eight supported flags:
`intersects`, `timestamps` and `extents`. -/
theorem mas_c4_unsupported_flags_message (e : Env) (cs : CacheState) (r : Request)
    (hmiss : e.mcEnabled = false ∨ cacheGet e cs (md5hex r.requestURI) = none)
    (hsel : selectOp r = none) :
    handler e cs r = ⟨400, jsonErrorBody unknownOpMsg, cs, []⟩ ∧
    "intersects".data <:+: unknownOpMsg.data ∧
    "timestamps".data <:+: unknownOpMsg.data ∧
    "extents".data <:+: unknownOpMsg.data := by
  refine ⟨?_, by decide, by decide, by decide⟩
  rcases hmiss with hoff | hm
  · rw [handler_disabled _ _ _ hoff]
    simp [dispatch, hsel]
  · cases he : e.mcEnabled
    · rw [handler_disabled _ _ _ he]
      simp [dispatch, hsel]
    · rw [handler_missed _ _ _ he hm]
      simp [dispatch, hsel]

/-- Closed instance of the amended C4: the flagless request `/x` is
answered 400 with the fixed message and no backend call. -/
theorem mas_c4_witness :
    (envPlain.mcEnabled = false ∨
      cacheGet envPlain [] (md5hex reqNoFlag.requestURI) = none) ∧
    selectOp reqNoFlag = none ∧
    handler envPlain [] reqNoFlag = ⟨400, jsonErrorBody unknownOpMsg, [], []⟩ := by
  have h1 : envPlain.mcEnabled = false ∨
      cacheGet envPlain [] (md5hex reqNoFlag.requestURI) = none := Or.inl rfl
  have h2 : selectOp reqNoFlag = none := by decide
  exact ⟨h1, h2, (mas_c4_unsupported_flags_message envPlain [] reqNoFlag h1 h2).1⟩

/-- C5: with the cache configured and not faulting, resubmitting the same
request after a first successful response reproduces the first response
body exactly, served from the cache with no backend call. -/
theorem mas_c5_cache_idempotent (db : OpName → List SqlArg → Except String String)
    (cs : CacheState) (r : Request)
    (hok : (handler ⟨db, true, noFault, noFault⟩ cs r).status = 200) :
    (handler ⟨db, true, noFault, noFault⟩
        (handler ⟨db, true, noFault, noFault⟩ cs r).cache r).body =
      (handler ⟨db, true, noFault, noFault⟩ cs r).body ∧
    (handler ⟨db, true, noFault, noFault⟩
        (handler ⟨db, true, noFault, noFault⟩ cs r).cache r).status = 200 ∧
    (handler ⟨db, true, noFault, noFault⟩
        (handler ⟨db, true, noFault, noFault⟩ cs r).cache r).dbCalls = [] := by
  cases hget : cacheGet ⟨db, true, noFault, noFault⟩ cs (md5hex r.requestURI) with
  | some v =>
    have h1 : handler ⟨db, true, noFault, noFault⟩ cs r = ⟨200, v, cs, []⟩ :=
      handler_hit _ _ _ _ rfl hget
    simp [h1, handler_hit _ _ _ _ rfl hget]
  | none =>
    have h1 : handler ⟨db, true, noFault, noFault⟩ cs r =
        dispatch ⟨db, true, noFault, noFault⟩ cs r (some (md5hex r.requestURI)) :=
      handler_missed _ _ _ rfl hget
    rw [h1] at hok ⊢
    cases hsel : selectOp r with
    | none => simp [dispatch, hsel] at hok
    | some op =>
      cases hres : db op (opArgs r op) with
      | error msg =>
        simp [dispatch, hsel, hres] at hok
      | ok payload =>
        have h2 : dispatch ⟨db, true, noFault, noFault⟩ cs r (some (md5hex r.requestURI)) =
            ⟨200, payload, (md5hex r.requestURI, payload) :: cs, [(op, opArgs r op)]⟩ := by
          simp [dispatch, hsel, hres, cacheSet, noFault]
        rw [h2]
        have hget2 : cacheGet ⟨db, true, noFault, noFault⟩
            ((md5hex r.requestURI, payload) :: cs) (md5hex r.requestURI) = some payload := by
          simp [cacheGet, noFault]
        simp [handler_hit _ _ _ _ rfl hget2]

/-- Closed instance of C5: a successful first `/t?timestamps` request
followed by the same request again, on an initially empty cache. -/
theorem mas_c5_witness :
    (handler envCached [] reqTsOnly).status = 200 ∧
    (handler envCached (handler envCached [] reqTsOnly).cache reqTsOnly).body =
      (handler envCached [] reqTsOnly).body ∧
    (handler envCached (handler envCached [] reqTsOnly).cache reqTsOnly).dbCalls = [] := by
  have hok : (handler envCached [] reqTsOnly).status = 200 := by decide
  have h := mas_c5_cache_idempotent (dbConst "{}") [] reqTsOnly hok
  exact ⟨hok, h.1, h.2.2⟩

/-- C6: the response content (status, body, and even the backend calls
issued) is independent of the cache layer's availability and faults — a
failing lookup behaves as a miss, a failing store is silently ignored,
and without a cache client both operations are no-ops on the cache. -/
theorem mas_c6_cache_independence (db : OpName → List SqlArg → Except String String)
    (gf sf sf2 : String → Bool) (cs : CacheState) (r : Request) :
    (handler ⟨db, true, fun _ => true, sf2⟩ cs r).body =
      (handler ⟨db, false, gf, sf⟩ cs r).body ∧
    (handler ⟨db, true, fun _ => true, sf2⟩ cs r).status =
      (handler ⟨db, false, gf, sf⟩ cs r).status ∧
    (handler ⟨db, true, fun _ => true, sf2⟩ cs r).dbCalls =
      (handler ⟨db, false, gf, sf⟩ cs r).dbCalls ∧
    (handler ⟨db, false, gf, sf⟩ cs r).cache = cs ∧
    (handler ⟨db, true, fun _ => true, fun _ => true⟩ cs r).cache = cs := by
  have hgetF : ∀ sfx : String → Bool,
      cacheGet ⟨db, true, fun _ => true, sfx⟩ cs (md5hex r.requestURI) = none := by
    intro sfx
    simp [cacheGet]
  have hfail : handler ⟨db, true, fun _ => true, sf2⟩ cs r =
      dispatch ⟨db, true, fun _ => true, sf2⟩ cs r (some (md5hex r.requestURI)) :=
    handler_missed _ _ _ rfl (hgetF sf2)
  have hoff : handler ⟨db, false, gf, sf⟩ cs r =
      dispatch ⟨db, false, gf, sf⟩ cs r none :=
    handler_disabled _ _ _ rfl
  have hcong := dispatch_obs_congr ⟨db, true, fun _ => true, sf2⟩ ⟨db, false, gf, sf⟩
    cs cs r (some (md5hex r.requestURI)) none rfl
  refine ⟨?_, ?_, ?_, ?_, ?_⟩
  · rw [hfail, hoff]; exact hcong.1
  · rw [hfail, hoff]; exact hcong.2.1
  · rw [hfail, hoff]; exact hcong.2.2
  · rw [hoff]; exact dispatch_cache_none _ _ _
  · rw [handler_missed _ _ _ rfl (hgetF (fun _ => true))]
    exact dispatch_cache_setFault _ _ _ _ (fun k => rfl)

/-- C7 as stated is false on the code: the cache-mutating operations go
through the same read-through cache path as every other operation — a
`put_ows_cache` request whose fingerprint is cached is answered from the
response cache without any backend call, and on a miss its successful
result is stored into the response cache. -/
theorem mas_c7_counterexample :
    selectOp reqPut = some OpName.put_ows_cache ∧
    handler envFresh csStale reqPut = ⟨200, "STALE", csStale, []⟩ ∧
    (handler envFresh [] reqPut).cache = [(md5hex reqPut.requestURI, "FRESH")] := by
  refine ⟨by decide, ?_, ?_⟩
  · have hget : cacheGet envFresh csStale (md5hex reqPut.requestURI) = some "STALE" := by
      simp [cacheGet, envFresh, csStale, noFault]
    exact handler_hit _ _ _ _ rfl hget
  · have hget : cacheGet envFresh [] (md5hex reqPut.requestURI) = none := by
      simp [cacheGet, envFresh, noFault]
    rw [handler_missed _ _ _ rfl hget]
    have hsel : selectOp reqPut = some OpName.put_ows_cache := by decide
    simp [dispatch, hsel, envFresh, dbConst, cacheSet, noFault]

/-- C7 amended: `put_ows_cache` and `get_ows_cache` are not exempted —
they share the uniform read-through response-cache path: with the cache
configured, a hit on the request fingerprint is answered from the cache
with no backend call, and a missed request whose backend call succeeds
has its payload stored under the fingerprint (best-effort). -/
theorem mas_c7_uniform_cache_path (e : Env) (cs : CacheState) (r : Request)
    (op : OpName) (v : String)
    (hop : op = OpName.put_ows_cache ∨ op = OpName.get_ows_cache)
    (hsel : selectOp r = some op) (he : e.mcEnabled = true) :
    (cacheGet e cs (md5hex r.requestURI) = some v →
      handler e cs r = ⟨200, v, cs, []⟩) ∧
    (∀ payload, cacheGet e cs (md5hex r.requestURI) = none →
      e.db op (opArgs r op) = Except.ok payload →
      handler e cs r =
        ⟨200, payload, cacheSet e cs (md5hex r.requestURI) payload,
          [(op, opArgs r op)]⟩) := by
  refine ⟨fun hget => handler_hit _ _ _ _ he hget, ?_⟩
  intro payload hget hdb
  rw [handler_missed _ _ _ he hget]
  simp [dispatch, hsel, hdb]

/-- Closed instance of the amended C7: a `put_ows_cache` request is
served from the cache on a hit, and stored on a successful miss. -/
theorem mas_c7_witness :
    selectOp reqPut = some OpName.put_ows_cache ∧
    cacheGet envFresh csStale (md5hex reqPut.requestURI) = some "STALE" ∧
    handler envFresh csStale reqPut = ⟨200, "STALE", csStale, []⟩ ∧
    handler envFresh [] reqPut =
      ⟨200, "FRESH", cacheSet envFresh [] (md5hex reqPut.requestURI) "FRESH",
        [(OpName.put_ows_cache, opArgs reqPut OpName.put_ows_cache)]⟩ := by
  have hsel : selectOp reqPut = some OpName.put_ows_cache := by decide
  have hhit : cacheGet envFresh csStale (md5hex reqPut.requestURI) = some "STALE" := by
    simp [cacheGet, envFresh, csStale, noFault]
  have hmiss : cacheGet envFresh [] (md5hex reqPut.requestURI) = none := by
    simp [cacheGet, envFresh, noFault]
  have h1 := mas_c7_uniform_cache_path envFresh csStale reqPut OpName.put_ows_cache
    "STALE" (Or.inl rfl) hsel rfl
  have h2 := mas_c7_uniform_cache_path envFresh [] reqPut OpName.put_ows_cache
    "STALE" (Or.inl rfl) hsel rfl
  exact ⟨hsel, hhit, h1.1 hhit, h2.2 "FRESH" hmiss rfl⟩

/-- C8: a backend error is answered 400 with the single-field JSON
object `{ "error": <quoted message> }` — for plain-ASCII messages the
error text appears verbatim inside the quotation marks — and the
backend is called exactly once, with no retry. -/
theorem mas_c8_backend_error_format (e : Env) (cs : CacheState) (r : Request)
    (op : OpName) (msg : String)
    (hmiss : e.mcEnabled = false ∨ cacheGet e cs (md5hex r.requestURI) = none)
    (hsel : selectOp r = some op)
    (hdb : e.db op (opArgs r op) = Except.error msg) :
    handler e cs r = ⟨400, jsonErrorBody msg, cs, [(op, opArgs r op)]⟩ ∧
    (msg.data.all plainChar = true →
      jsonErrorBody msg = "\x7b \"error\": \"" ++ msg ++ "\" \x7d" ++ "\n") := by
  refine ⟨?_, jsonErrorBody_plain msg⟩
  rcases hmiss with hoff | hm
  · rw [handler_disabled _ _ _ hoff]
    simp [dispatch, hsel, hdb]
  · cases he : e.mcEnabled
    · rw [handler_disabled _ _ _ he]
      simp [dispatch, hsel, hdb]
    · rw [handler_missed _ _ _ he hm]
      simp [dispatch, hsel, hdb]

/-- Closed instance of C8: an `/x?extents` request whose backend fails
with `boom` is answered 400 with `{ "error": "boom" }` and exactly one
backend call. -/
theorem mas_c8_witness :
    selectOp reqExt = some OpName.extents ∧
    handler envErr [] reqExt =
      ⟨400, "\x7b \"error\": \"boom\" \x7d" ++ "\n", [],
        [(OpName.extents, opArgs reqExt OpName.extents)]⟩ := by
  have hsel : selectOp reqExt = some OpName.extents := by decide
  have h := mas_c8_backend_error_format envErr [] reqExt OpName.extents "boom"
    (Or.inl rfl) hsel rfl
  refine ⟨hsel, ?_⟩
  rw [h.1, h.2 (by decide)]
  decide

/-- C9: with the cache configured, a request whose fingerprint is found
in the cache is answered with exactly the cached bytes: no operation is
dispatched, no backend call is made, and the cache is left unchanged. -/
theorem mas_c9_cache_hit_short_circuit (e : Env) (cs : CacheState) (r : Request)
    (v : String) (he : e.mcEnabled = true)
    (hhit : cacheGet e cs (md5hex r.requestURI) = some v) :
    handler e cs r = ⟨200, v, cs, []⟩ :=
  handler_hit e cs r v he hhit

/-- Closed instance of C9: a `/t?timestamps` request whose fingerprint
is cached replays the cached bytes with no backend call. -/
theorem mas_c9_witness :
    cacheGet envCached csHit (md5hex reqTsOnly.requestURI) = some "CACHED" ∧
    handler envCached csHit reqTsOnly = ⟨200, "CACHED", csHit, []⟩ := by
  have hhit : cacheGet envCached csHit (md5hex reqTsOnly.requestURI) = some "CACHED" := by
    simp [cacheGet, envCached, csHit, noFault]
  exact ⟨hhit, mas_c9_cache_hit_short_circuit envCached csHit reqTsOnly "CACHED" rfl hhit⟩

end MasApi

